import Mathlib

/-!
Shallow embedding of the tinyfsm finite-state-machine library.

The Rust source (`src/lib.rs`) defines the `StateBehavior` trait and a macro
generating a `StateMachine`-shaped struct with operations `new`, `transition`,
`force_state`, `get_current_state` and `handle`.  Rust's `&mut Context` side
effects become explicit context passing: a hook `C → C`, and the decision
function returns `Option S × C`.  The integration test (`tests/integration.rs`)
instantiates the machine with the Mario example, embedded below.
-/

namespace Tinyfsm

/-- Embedding of the `StateBehavior` trait from `src/lib.rs`.  `handle` decides
the next state for an event and may mutate the context; `enter` and `exit` are
lifecycle hooks whose trait-level default bodies are no-ops, mirrored here by
default field values. -/
structure StateBehavior (S E C : Type) where
  handle : S → E → C → Option S × C
  enter : S → C → C := fun _ c => c
  exit : S → C → C := fun _ c => c

/-- The machine struct generated by the macro: one current state and one
context value. -/
structure StateMachine (S C : Type) where
  current_state : S
  context : C
deriving DecidableEq

variable {S E C : Type}

/-- Embedding of the generated `new()` (src/lib.rs lines 190-198).  The macro
supplies the first-listed state as the initial state and the `Default` context;
both appear here as parameters of the embedding. -/
def StateMachine.new (initial_state : S) (default_context : C) :
    StateMachine S C :=
  { current_state := initial_state, context := default_context }

/-- Modelled from the spec: the two-argument `new(initial_state, context)`
constructor generated by the `state_machine!` macro variant that the
integration tests call; that macro is not under src/.  Per the spec it
"constructs a machine with the given state and context; runs no hooks". -/
def StateMachine.newWith (initial_state : S) (context : C) :
    StateMachine S C :=
  { current_state := initial_state, context := context }

/-- Embedding of `transition` (src/lib.rs lines 201-205): exit on the current
state, overwrite the state, enter on the new state. -/
def StateMachine.transition (b : StateBehavior S E C) (m : StateMachine S C)
    (new_state : S) : StateMachine S C :=
  let c1 := b.exit m.current_state m.context
  { current_state := new_state, context := b.enter new_state c1 }

/-- Embedding of `force_state` (src/lib.rs lines 209-211): overwrite the
current state, no hooks. -/
def StateMachine.force_state (m : StateMachine S C) (new_state : S) :
    StateMachine S C :=
  { m with current_state := new_state }

/-- Embedding of `get_current_state` (src/lib.rs lines 214-216). -/
def StateMachine.get_current_state (m : StateMachine S C) : S :=
  m.current_state

/-- Embedding of `handle` (src/lib.rs lines 219-228): ask the current state to
decide; on `some next_state` run exit, commit, enter; on `none` do nothing
beyond whatever the decision function itself did to the context. -/
def StateMachine.handle (b : StateBehavior S E C) (m : StateMachine S C)
    (event : E) : StateMachine S C :=
  match b.handle m.current_state event m.context with
  | (some next_state, c1) =>
      let c2 := b.exit m.current_state c1
      { current_state := next_state, context := b.enter next_state c2 }
  | (none, c1) => { m with context := c1 }

/-- A recorded hook invocation, used to observe call order, as the spec
suggests: "verify via a context field recording call order". -/
inductive HookCall (S : Type) where
  | exitCall (s : S)
  | enterCall (s : S)
deriving DecidableEq

/-- Whether a recorded hook invocation is an `exit` call. -/
def HookCall.isExit : HookCall S → Bool
  | .exitCall _ => true
  | .enterCall _ => false

/-- Whether a recorded hook invocation is an `enter` call. -/
def HookCall.isEnter : HookCall S → Bool
  | .exitCall _ => false
  | .enterCall _ => true

/-- Instrument a behavior with a trace component in the context that records
every hook invocation in order.  The decision function leaves the trace
untouched; each hook appends its record. -/
def traced (b : StateBehavior S E C) :
    StateBehavior S E (C × List (HookCall S)) where
  handle := fun s e p =>
    ((b.handle s e p.1).1, ((b.handle s e p.1).2, p.2))
  enter := fun s p => (b.enter s p.1, p.2 ++ [HookCall.enterCall s])
  exit := fun s p => (b.exit s p.1, p.2 ++ [HookCall.exitCall s])

end Tinyfsm

namespace MarioGame

open Tinyfsm

/-- Consumable items, from tests/integration.rs. -/
inductive MarioConsumables where
  | Mushroom
  | Flower
  | Feather
deriving DecidableEq, Fintype

/-- Mario's size, from tests/integration.rs. -/
inductive MarioSize where
  | Small
  | Large
deriving DecidableEq, Fintype

/-- The Mario machine's states, from tests/integration.rs. -/
inductive MarioStates where
  | DeadMario
  | SmallMario
  | SuperMario
  | FireMario
  | CapeMario
deriving DecidableEq, Fintype

/-- The Mario machine's events, from tests/integration.rs. -/
inductive Events where
  | GetConsumable (item : MarioConsumables)
  | Hit
deriving DecidableEq, Fintype

/-- The Mario machine's context, from tests/integration.rs. -/
structure Context where
  size : MarioSize
  alive : Bool
deriving DecidableEq, Fintype

/-- The macro-declared context defaults: `size = Small`, `alive = true`. -/
def Context.defaultCtx : Context :=
  { size := MarioSize.Small, alive := true }

open MarioStates MarioConsumables in
/-- The `StateBehavior` implementation for `MarioStates` from
tests/integration.rs: `handle` is its decision table (it never writes the
context), `enter` sets the per-state context fields, `exit` keeps the trait's
default no-op. -/
def marioBehavior : StateBehavior MarioStates Events Context where
  handle := fun s e c =>
    (match s, e with
      | SmallMario, .GetConsumable item =>
        match item with
        | Mushroom => some SuperMario
        | Flower => some FireMario
        | Feather => some CapeMario
      | SuperMario, .GetConsumable item =>
        match item with
        | Flower => some FireMario
        | Feather => some CapeMario
        | _ => none
      | FireMario, .GetConsumable item =>
        match item with
        | Feather => some CapeMario
        | _ => none
      | CapeMario, .GetConsumable item =>
        match item with
        | Flower => some FireMario
        | _ => none
      | SmallMario, .Hit => some DeadMario
      | SuperMario, .Hit => some SmallMario
      | FireMario, .Hit => some SmallMario
      | CapeMario, .Hit => some SmallMario
      | DeadMario, _ => none, c)
  enter := fun s c =>
    match s with
    | DeadMario => { c with alive := false }
    | SmallMario => { c with size := MarioSize.Small }
    | _ => { c with size := MarioSize.Large }

/-- The machine the integration test constructs:
`Mario::new(SmallMario, Context { size: Small, alive: true })`. -/
def mario0 : StateMachine MarioStates Context :=
  StateMachine.newWith MarioStates.SmallMario
    { size := MarioSize.Small, alive := true }

/-- Deliver a list of events in order through the engine's `handle`. -/
def run (m : StateMachine MarioStates Context) (es : List Events) :
    StateMachine MarioStates Context :=
  es.foldl (StateMachine.handle marioBehavior) m

/-- The per-state context invariant of the Mario machine: the grown states
carry `size = Large`. -/
def marioInv (m : StateMachine MarioStates Context) : Prop :=
  (m.current_state = MarioStates.SuperMario ∨
      m.current_state = MarioStates.FireMario ∨
      m.current_state = MarioStates.CapeMario) →
    m.context.size = MarioSize.Large

instance (m : StateMachine MarioStates Context) : Decidable (marioInv m) := by
  unfold marioInv
  infer_instance

end MarioGame

namespace Tinyfsm

variable {S E C : Type}

/-- C1: `transition(new_state)` first invokes `exit` on the state that was
current at the start of the call (against the context as it was then),
then commits `new_state` as the current state, then invokes `enter` on
`new_state` against the post-exit context; the instrumented trace shows the
two hook invocations in exactly that order with nothing interposed. -/
theorem transition_exit_commit_enter_order
    (b : StateBehavior S E C) (m : StateMachine S C) (new_state : S)
    (s0 : S) (c : C) (t : List (HookCall S)) :
    (m.transition b new_state).current_state = new_state ∧
    (m.transition b new_state).context
      = b.enter new_state (b.exit m.current_state m.context) ∧
    ((StateMachine.mk s0 (c, t)).transition (traced b) new_state).context.1
      = b.enter new_state (b.exit s0 c) ∧
    ((StateMachine.mk s0 (c, t)).transition (traced b) new_state).context.2
      = t ++ [HookCall.exitCall s0, HookCall.enterCall new_state] := by
  refine ⟨rfl, rfl, rfl, ?_⟩
  simp [StateMachine.transition, traced]

/-- C3: `force_state(new_state)` overwrites the current state, leaves the
context (hence any instrumentation it carries) untouched, and its definition
never consults the behavior, so no hook can fire. -/
theorem force_state_no_hooks (m : StateMachine S C) (new_state : S) :
    (m.force_state new_state).current_state = new_state ∧
    (m.force_state new_state).context = m.context :=
  ⟨rfl, rfl⟩

/-- C4: starting from an empty call recorder, `transition(new_state)` records
exactly one `exit` call and exactly one `enter` call, also when `new_state`
is the current state itself (self-transition). -/
theorem transition_exactly_one_exit_one_enter
    (b : StateBehavior S E C) (s0 new_state : S) (c : C) :
    ((StateMachine.mk s0 (c, ([] : List (HookCall S)))).transition
        (traced b) new_state).context.2
      = [HookCall.exitCall s0, HookCall.enterCall new_state] ∧
    (((StateMachine.mk s0 (c, ([] : List (HookCall S)))).transition
        (traced b) new_state).context.2.countP HookCall.isExit) = 1 ∧
    (((StateMachine.mk s0 (c, ([] : List (HookCall S)))).transition
        (traced b) new_state).context.2.countP HookCall.isEnter) = 1 ∧
    ((StateMachine.mk s0 (c, ([] : List (HookCall S)))).transition
        (traced b) s0).context.2
      = [HookCall.exitCall s0, HookCall.enterCall s0] :=
  ⟨rfl, rfl, rfl, rfl⟩

/-- C5: construction — the source's `new()` (with the macro's initial state
and defaulted context as parameters) and the spec-modelled two-argument
`new(initial_state, context)` — installs exactly the given state and context;
the context comes through verbatim (no `enter` is applied to it), and an
instrumented context records no hook call. -/
theorem new_installs_without_enter (s : S) (c : C) :
    (StateMachine.new s c).current_state = s ∧
    (StateMachine.new s c).context = c ∧
    (StateMachine.newWith s c).current_state = s ∧
    (StateMachine.newWith s c).context = c ∧
    ∀ t : List (HookCall S),
      ((StateMachine.new s (c, t)).context.2 = t ∧
       (StateMachine.newWith s (c, t)).context.2 = t) :=
  ⟨rfl, rfl, rfl, rfl, fun _ => ⟨rfl, rfl⟩⟩

/-- C2: `handle(e)` asks the current state's decision function; on
`some next` with mutated context `c1` it behaves exactly as `transition`
does on the machine carrying `c1`; on `none` the current state is kept, the
context is whatever the decision function left, and (shown on the
instrumented behavior) neither `exit` nor `enter` is recorded. -/
theorem handle_event_dispatch
    (b : StateBehavior S E C) (m : StateMachine S C) (e : E) :
    (∀ (next : S) (c1 : C),
        b.handle m.current_state e m.context = (some next, c1) →
        m.handle b e = StateMachine.transition b ⟨m.current_state, c1⟩ next) ∧
    (∀ c1 : C,
        b.handle m.current_state e m.context = (none, c1) →
        (m.handle b e).current_state = m.current_state ∧
        (m.handle b e).context = c1) ∧
    (∀ (s0 : S) (c : C) (t : List (HookCall S)),
        (b.handle s0 e c).1 = none →
        (StateMachine.handle (traced b) ⟨s0, (c, t)⟩ e).current_state = s0 ∧
        (StateMachine.handle (traced b) ⟨s0, (c, t)⟩ e).context.2 = t) := by
  refine ⟨?_, ?_, ?_⟩
  · intro next c1 h
    simp [StateMachine.handle, h, StateMachine.transition]
  · intro c1 h
    simp [StateMachine.handle, h]
  · intro s0 c t h
    have hp : (traced b).handle s0 e (c, t)
        = (none, ((b.handle s0 e c).2, t)) := by
      simp [traced, h]
    simp [StateMachine.handle, hp]

end Tinyfsm

namespace MarioGame

open Tinyfsm

/-- The decision table of `MarioStates` maps every event delivered to
`DeadMario` to no transition and leaves the context unchanged. -/
theorem marioHandle_dead (e : Events) (c : Context) :
    marioBehavior.handle MarioStates.DeadMario e c = (none, c) := by
  cases e <;> rfl

/-- The engine's `handle` fixes any machine whose current state is
`DeadMario`. -/
theorem handle_dead_fix (m : StateMachine MarioStates Context) (e : Events)
    (h : m.current_state = MarioStates.DeadMario) :
    m.handle marioBehavior e = m := by
  obtain ⟨s, c⟩ := m
  replace h : s = MarioStates.DeadMario := h
  subst h
  simp [StateMachine.handle, marioHandle_dead]

/-- C7: from `SmallMario` with context `{size: Small, alive: true}`, the event
sequence Mushroom, Flower, Feather, Hit, Hit produces, step by step:
SuperMario `{Large, true}`, FireMario `{Large, true}`, CapeMario
`{Large, true}`, SmallMario `{Small, true}`, DeadMario with `alive = false`. -/
theorem mario_scenario :
    ((run mario0 [.GetConsumable .Mushroom]).current_state
        = MarioStates.SuperMario ∧
      (run mario0 [.GetConsumable .Mushroom]).context.size = MarioSize.Large ∧
      (run mario0 [.GetConsumable .Mushroom]).context.alive = true) ∧
    ((run mario0 [.GetConsumable .Mushroom, .GetConsumable .Flower]).current_state
        = MarioStates.FireMario ∧
      (run mario0 [.GetConsumable .Mushroom, .GetConsumable .Flower]).context.size
        = MarioSize.Large ∧
      (run mario0 [.GetConsumable .Mushroom, .GetConsumable .Flower]).context.alive
        = true) ∧
    ((run mario0 [.GetConsumable .Mushroom, .GetConsumable .Flower,
        .GetConsumable .Feather]).current_state = MarioStates.CapeMario ∧
      (run mario0 [.GetConsumable .Mushroom, .GetConsumable .Flower,
        .GetConsumable .Feather]).context.size = MarioSize.Large ∧
      (run mario0 [.GetConsumable .Mushroom, .GetConsumable .Flower,
        .GetConsumable .Feather]).context.alive = true) ∧
    ((run mario0 [.GetConsumable .Mushroom, .GetConsumable .Flower,
        .GetConsumable .Feather, .Hit]).current_state = MarioStates.SmallMario ∧
      (run mario0 [.GetConsumable .Mushroom, .GetConsumable .Flower,
        .GetConsumable .Feather, .Hit]).context.size = MarioSize.Small ∧
      (run mario0 [.GetConsumable .Mushroom, .GetConsumable .Flower,
        .GetConsumable .Feather, .Hit]).context.alive = true) ∧
    ((run mario0 [.GetConsumable .Mushroom, .GetConsumable .Flower,
        .GetConsumable .Feather, .Hit, .Hit]).current_state
        = MarioStates.DeadMario ∧
      (run mario0 [.GetConsumable .Mushroom, .GetConsumable .Flower,
        .GetConsumable .Feather, .Hit, .Hit]).context.alive = false) := by
  decide

/-- C8: `DeadMario` is absorbing — once the current state is `DeadMario`,
no sequence of `handle` calls changes it. -/
theorem dead_absorbing :
    ∀ (es : List Events) (m : StateMachine MarioStates Context),
      m.current_state = MarioStates.DeadMario →
      (run m es).current_state = MarioStates.DeadMario := by
  intro es
  induction es with
  | nil => intro m h; exact h
  | cons e es ih =>
    intro m h
    have hstep : run m (e :: es)
        = run (StateMachine.handle marioBehavior m e) es := rfl
    rw [hstep, handle_dead_fix m e h]
    exact ih m h

/-- Witness for C8 at the machine `⟨DeadMario, default context⟩` and the
event list `[Hit, GetConsumable Mushroom]`. -/
theorem dead_absorbing_witness :
    ((⟨MarioStates.DeadMario, Context.defaultCtx⟩ :
        StateMachine MarioStates Context).current_state
      = MarioStates.DeadMario) ∧
    (run ⟨MarioStates.DeadMario, Context.defaultCtx⟩
        [.Hit, .GetConsumable .Mushroom]).current_state
      = MarioStates.DeadMario :=
  ⟨rfl,
    dead_absorbing [.Hit, .GetConsumable .Mushroom]
      ⟨MarioStates.DeadMario, Context.defaultCtx⟩ rfl⟩

/-- One engine step preserves the Mario context invariant. -/
theorem marioInv_step :
    ∀ (s : MarioStates) (sz : MarioSize) (al : Bool) (e : Events),
      marioInv ⟨s, ⟨sz, al⟩⟩ →
      marioInv (StateMachine.handle marioBehavior ⟨s, ⟨sz, al⟩⟩ e) := by
  decide

/-- Any event sequence preserves the Mario context invariant. -/
theorem marioInv_run :
    ∀ (es : List Events) (m : StateMachine MarioStates Context),
      marioInv m → marioInv (run m es) := by
  intro es
  induction es with
  | nil => intro m h; exact h
  | cons e es ih =>
    intro m h
    obtain ⟨s, sz, al⟩ := m
    exact ih _ (marioInv_step s sz al e h)

/-- C9: in every machine reachable from the initial Mario machine by `handle`
calls, being in `SuperMario`, `FireMario` or `CapeMario` implies
`context.size = Large`. -/
theorem mario_grown_states_large :
    ∀ (es : List Events),
      ((run mario0 es).current_state = MarioStates.SuperMario ∨
        (run mario0 es).current_state = MarioStates.FireMario ∨
        (run mario0 es).current_state = MarioStates.CapeMario) →
      (run mario0 es).context.size = MarioSize.Large :=
  fun es h => marioInv_run es mario0 (by decide) h

/-- Witness for C9 after delivering one Mushroom, reaching `SuperMario`. -/
theorem mario_grown_states_large_witness :
    ((run mario0 [.GetConsumable .Mushroom]).current_state
        = MarioStates.SuperMario ∨
      (run mario0 [.GetConsumable .Mushroom]).current_state
        = MarioStates.FireMario ∨
      (run mario0 [.GetConsumable .Mushroom]).current_state
        = MarioStates.CapeMario) ∧
    (run mario0 [.GetConsumable .Mushroom]).context.size = MarioSize.Large :=
  ⟨by decide,
    mario_grown_states_large [.GetConsumable .Mushroom] (by decide)⟩

/-- C10: the Mario decision function never mutates the context, and an event
that causes no transition leaves the whole machine exactly unchanged. -/
theorem mario_handle_pure_and_no_transition_frame :
    (∀ (s : MarioStates) (e : Events) (c : Context),
        (marioBehavior.handle s e c).2 = c) ∧
    (∀ (m : StateMachine MarioStates Context) (e : Events),
        (marioBehavior.handle m.current_state e m.context).1 = none →
        StateMachine.handle marioBehavior m e = m) := by
  constructor
  · intro s e c
    rfl
  · intro m e h
    obtain ⟨s, c⟩ := m
    have h1 : (marioBehavior.handle s e c).1 = none := h
    have hp : marioBehavior.handle s e c = (none, c) := by
      calc marioBehavior.handle s e c
          = ((marioBehavior.handle s e c).1,
             (marioBehavior.handle s e c).2) := rfl
        _ = (none, c) := by rw [h1]; rfl
    simp [StateMachine.handle, hp]

/-- Witness for C10 at `DeadMario` with the default context and event `Hit`,
which causes no transition. -/
theorem mario_handle_pure_witness :
    ((marioBehavior.handle MarioStates.DeadMario Events.Hit
        Context.defaultCtx).1 = none) ∧
    ((marioBehavior.handle MarioStates.DeadMario Events.Hit
        Context.defaultCtx).2 = Context.defaultCtx) ∧
    (StateMachine.handle marioBehavior
        ⟨MarioStates.DeadMario, Context.defaultCtx⟩ Events.Hit
      = ⟨MarioStates.DeadMario, Context.defaultCtx⟩) :=
  ⟨by decide,
    mario_handle_pure_and_no_transition_frame.1 MarioStates.DeadMario
      Events.Hit Context.defaultCtx,
    mario_handle_pure_and_no_transition_frame.2
      ⟨MarioStates.DeadMario, Context.defaultCtx⟩ Events.Hit (by decide)⟩

/-- Witness for C2 on the Mario instance: a transition-producing event at
`SmallMario` (hit kills) and a no-transition event at `DeadMario`. -/
theorem handle_event_dispatch_witness :
    (marioBehavior.handle MarioStates.SmallMario Events.Hit Context.defaultCtx
      = (some MarioStates.DeadMario, Context.defaultCtx)) ∧
    (StateMachine.handle marioBehavior
        ⟨MarioStates.SmallMario, Context.defaultCtx⟩ Events.Hit
      = StateMachine.transition marioBehavior
          ⟨MarioStates.SmallMario, Context.defaultCtx⟩ MarioStates.DeadMario) ∧
    ((marioBehavior.handle MarioStates.DeadMario Events.Hit
        Context.defaultCtx).1 = none) ∧
    ((StateMachine.handle marioBehavior
        ⟨MarioStates.DeadMario, Context.defaultCtx⟩ Events.Hit).current_state
      = MarioStates.DeadMario ∧
     (StateMachine.handle marioBehavior
        ⟨MarioStates.DeadMario, Context.defaultCtx⟩ Events.Hit).context
      = Context.defaultCtx) ∧
    ((StateMachine.handle (traced marioBehavior)
        ⟨MarioStates.DeadMario, (Context.defaultCtx, [])⟩
        Events.Hit).current_state = MarioStates.DeadMario ∧
     (StateMachine.handle (traced marioBehavior)
        ⟨MarioStates.DeadMario, (Context.defaultCtx, [])⟩
        Events.Hit).context.2 = []) :=
  ⟨by decide,
    (Tinyfsm.handle_event_dispatch marioBehavior
        ⟨MarioStates.SmallMario, Context.defaultCtx⟩ Events.Hit).1
      MarioStates.DeadMario Context.defaultCtx (by decide),
    by decide,
    (Tinyfsm.handle_event_dispatch marioBehavior
        ⟨MarioStates.DeadMario, Context.defaultCtx⟩ Events.Hit).2.1
      Context.defaultCtx (by decide),
    (Tinyfsm.handle_event_dispatch marioBehavior
        ⟨MarioStates.DeadMario, Context.defaultCtx⟩ Events.Hit).2.2
      MarioStates.DeadMario Context.defaultCtx [] (by decide)⟩

end MarioGame
